import Mathlib

/-!
# Verification of the homebins manifest engine

Shallow embedding of `src/lib.rs` of the `homebins` repository, together
with models of the `dirs`, `manifest` and `operations` modules (whose
sources are not part of the tree and are modelled from the specification).

Conventions of the embedding:
* Filesystem paths are lists of path components (`Path := List String`);
  `PathBuf::join` with a single file name is `Path.joinc`.
* External crates (`regex`, `versions`, UTF-8 decoding of `std`, the
  checksum digest) are abstracted as an `Ext` record of oracles, since
  their internals are outside the repository.
* The ambient world a Rust function runs in (filesystem predicates,
  subprocess execution, network fetch) is an explicit `Env` record; the
  mutable filesystem written by the operation executor is an explicit
  `FsState` threaded through the executor.
* Side effects that matter for ordering claims (invoking the installed
  binary as a subprocess) are recorded in an event trace returned next to
  the result.
-/

namespace Homebins

/-- A filesystem path, as its list of components. -/
abbrev Path := List String

/-- `PathBuf::join` with a single file-name component. -/
def Path.joinc (p : Path) (name : String) : Path := p ++ [name]

/-- Modelled from the spec: the directory kinds of the missing `dirs`
module — every installed file lands in the bin, man or completion
directory (§3 Data model, `InstallDirs`). -/
inductive Dir where
  | bin
  | man
  | completion
deriving DecidableEq, Repr

/-- Modelled from the spec: `InstallDirs` of the missing `dirs` module —
"a fixed set of named directories (bin, man, completion) the operations
write into" (§3). -/
structure InstallDirs where
  bin : Path
  man : Path
  completion : Path
deriving DecidableEq, Repr

/-- Modelled from the spec: `InstallDirs::path` of the missing `dirs`
module — "every destination kind maps to exactly one directory" (§3). -/
def InstallDirs.path (dirs : InstallDirs) : Dir → Path
  | .bin => dirs.bin
  | .man => dirs.man
  | .completion => dirs.completion

/-- Modelled from the spec: `InstallDirs::bin_dir` of the missing `dirs`
module. -/
def InstallDirs.bin_dir (dirs : InstallDirs) : Path := dirs.bin

/-- A parsed semantic-version-like value with a total (lexicographic)
order, modelling `versions::Versioning` (external crate). -/
structure Versioning where
  major : Nat
  minor : Nat
  patch : Nat
deriving DecidableEq, Repr

/-- Strict lexicographic order on versions, modelling `<` on
`versions::Versioning`. -/
def Versioning.lt (a b : Versioning) : Bool :=
  a.major < b.major ∨
    (a.major = b.major ∧
      (a.minor < b.minor ∨ (a.minor = b.minor ∧ a.patch < b.patch)))

/-- Modelled from the spec: the `version_check` field of the missing
`manifest` module — "argument list + regex pattern string" (§3). -/
structure VersionCheck where
  args : List String
  pattern : String
deriving DecidableEq, Repr

/-- Modelled from the spec: the `discover` section of the missing
`manifest` module — "binary filename to look for" plus the version
check (§3). -/
structure Discover where
  binary : String
  version_check : VersionCheck
deriving DecidableEq, Repr

/-- Modelled from the spec: the `info` section of the missing `manifest`
module — name and declared semantic version (§3). -/
structure Info where
  name : String
  version : Versioning
deriving DecidableEq, Repr

/-- Modelled from the spec: `Destination` of the missing `operations`
module — "a (directory-kind, file-name) pair; the addressing scheme for
every installed artifact" (§3). -/
structure Destination where
  directory : Dir
  name : String
deriving DecidableEq, Repr

/-- Modelled from the spec: one file a manifest declares installing —
destination kind, final name, whether it is placed executable, and the
member/scratch path its content comes from (§3, §6). -/
structure InstallFile where
  source : String
  destDir : Dir
  name : String
  isExecutable : Bool
deriving DecidableEq, Repr

/-- A checksum value, abstracted to its digest string. -/
abbrev Checksum := String

/-- Modelled from the spec: the source/installation description of the
missing `manifest` module — "archive/download location, checksum, list of
files to place with their destination kind and final name" (§3). -/
structure Install where
  url : String
  checksum : Checksum
  files : List InstallFile
deriving DecidableEq, Repr

/-- Modelled from the spec: `Manifest` of the missing `manifest` module
(§3). -/
structure Manifest where
  info : Info
  discover : Discover
  install : Install
deriving DecidableEq, Repr

/-- The outcome of running a subprocess that could be spawned:
`std::process::Output`, restricted to the fields the code consumes plus
the exit code. Stdout is raw bytes (`Vec<u8>`). -/
structure ProcOutput where
  exitCode : Int
  stdout : List Nat
deriving DecidableEq, Repr

/-- Oracles for the external crates used by `lib.rs`: the `regex` engine
(compile may fail; a compiled regex maps a haystack to the text of capture
group 1 of the first match, if any), `versions::Versioning::new`,
`std::str::from_utf8`, and the checksum digest function. -/
structure Ext where
  compile : String → Option (String → Option String)
  parseVersion : String → Option Versioning
  decodeUtf8 : List Nat → Option String
  hash : List Nat → Checksum

/-- The ambient world of a library call: filesystem predicates, subprocess
execution (`none` models failure to spawn/collect the process at all),
network fetch, archive member extraction, and fallibility of directory
creation and file deletion. -/
structure Env where
  is_file : Path → Bool
  run : Path → List String → Option ProcOutput
  fetch : String → Option (List Nat)
  extractMember : List Nat → String → Option (List Nat)
  create_dir_all : Path → Bool
  delete_ok : Path → Bool

/-- The error kinds raised by the engine (`anyhow` error chains in the
source, distinguished here by their construction site). -/
inductive Err where
  | runFailed (binary : Path) (args : List String)
  | invalidRegex (name : String) (pattern : String)
  | nonUtf8 (binary : Path) (args : List String) (stdout : List Nat)
  | invalidVersion (binary : Path) (args : List String) (captured : Option String)
  | createDirFailed (dir : Path)
  | networkError (url : String)
  | checksumMismatch (expected : Checksum) (actual : Checksum)
  | missingMember (member : String)
  | missingScratchFile (path : Path)
  | deleteFailed (path : Path)
deriving DecidableEq, Repr

/-- Observable side-effect events, used for claims about ordering. -/
inductive Event where
  | ranProcess (binary : Path) (args : List String)
deriving DecidableEq, Repr

/-- `installed_manifest_version` from `src/lib.rs` lines 124–169,
returning the trace of subprocess invocations next to the result.
The source order is: check `binary.is_file()`; run the command; compile
the regex; decode stdout as UTF-8; apply the pattern and take capture
group 1; parse the captured text as a version. -/
def installed_manifest_version (ext : Ext) (env : Env) (dirs : InstallDirs)
    (manifest : Manifest) : List Event × Except Err (Option Versioning) :=
  let args := manifest.discover.version_check.args
  let binary := dirs.bin_dir.joinc manifest.discover.binary
  if env.is_file binary then
    let events := [Event.ranProcess binary args]
    match env.run binary args with
    | none => (events, .error (.runFailed binary args))
    | some output =>
      match ext.compile manifest.discover.version_check.pattern with
      | none =>
        (events,
          .error (.invalidRegex manifest.info.name
            manifest.discover.version_check.pattern))
      | some pattern =>
        match ext.decodeUtf8 output.stdout with
        | none => (events, .error (.nonUtf8 binary args output.stdout))
        | some out =>
          let version := pattern out
          match version with
          | none => (events, .ok none)
          | some s =>
            match ext.parseVersion s with
            | none => (events, .error (.invalidVersion binary args (some s)))
            | some v => (events, .ok (some v))
  else ([], .ok none)

/-- `outdated_manifest_version` from `src/lib.rs` lines 174–178:
propagate the probe's error, otherwise keep the installed version only
when it is strictly below the manifest's declared version. -/
def outdated_manifest_version (ext : Ext) (env : Env) (dirs : InstallDirs)
    (manifest : Manifest) : List Event × Except Err (Option Versioning) :=
  match installed_manifest_version ext env dirs manifest with
  | (events, .error e) => (events, .error e)
  | (events, .ok installed) =>
    (events,
      .ok (installed.filter fun installed =>
        Versioning.lt installed manifest.info.version))

/-- The mutable filesystem the operation executor writes: an association
list from path to file content, most recent write first. -/
def FsState := List (Path × List Nat)

/-- Read a file's content, `none` when absent. -/
def FsState.read : FsState → Path → Option (List Nat)
  | [], _ => none
  | (r, content) :: rest, p =>
    if r = p then some content else FsState.read rest p

/-- Create or overwrite a file. -/
def FsState.write (fs : FsState) (p : Path) (content : List Nat) : FsState :=
  (p, content) :: fs

/-- Delete a file. -/
def FsState.erase (fs : FsState) (p : Path) : FsState :=
  fs.filter fun entry => !decide (entry.1 = p)

/-- Modelled from the spec: the apply-side `Operation` sum type of the
missing `operations` module — "tagged variant over Download(source,
checksum, target-in-scratch), Extract(archive-member, target-in-scratch),
PlaceExecutable(scratch-path, destination), PlaceFile(scratch-path,
destination)" (§3). `extract` also records which scratch archive the
member is pulled from. -/
inductive Operation where
  | download (url : String) (checksum : Checksum) (target : String)
  | extract (archive : String) (member : String) (target : String)
  | placeExecutable (source : String) (destination : Destination)
  | placeFile (source : String) (destination : Destination)
deriving DecidableEq, Repr

/-- Modelled from the spec: `RemoveOperation` of the missing `operations`
module — "tagged variant Delete(directory-kind, file-name)" (§3). -/
inductive RemoveOperation where
  | delete (dir : Dir) (name : String)
deriving DecidableEq, Repr

/-- The scratch file name the download is fetched to, derived from the
artifact location. -/
def downloadName (url : String) : String := url

/-- Modelled from the spec: `operations::install_manifest` of the missing
`operations` module — the planner maps a manifest to an ordered operation
sequence in which "a Download operation for a given artifact must precede
every Extract/Place* operation that consumes its output" (§4.1). -/
def operations.install_manifest (manifest : Manifest) : List Operation :=
  Operation.download manifest.install.url manifest.install.checksum
      (downloadName manifest.install.url) ::
    (manifest.install.files.map fun file =>
      [Operation.extract (downloadName manifest.install.url) file.source
          file.source,
        if file.isExecutable then
          Operation.placeExecutable file.source ⟨file.destDir, file.name⟩
        else Operation.placeFile file.source ⟨file.destDir, file.name⟩]).flatten

/-- Modelled from the spec: `operations::remove_manifest` of the missing
`operations` module — "computed independently from the manifest's declared
installed-file destinations" (§4.1). -/
def operations.remove_manifest (manifest : Manifest) : List RemoveOperation :=
  manifest.install.files.map fun file =>
    RemoveOperation.delete file.destDir file.name

/-- Modelled from the spec: `operations::operation_destinations` of the
missing `operations` module — the destinations of the place operations of
a plan, the answer to "what files does this manifest own" (§4.1). -/
def operations.operation_destinations (ops : List Operation) :
    List Destination :=
  ops.filterMap fun op =>
    match op with
    | .placeExecutable _ destination => some destination
    | .placeFile _ destination => some destination
    | _ => none

/-- `installed_files` from `src/lib.rs` lines 181–185. The `env` and `fs`
arguments are the ambient world every library call runs in; the body,
translated from the source, consults neither. -/
def installed_files (_env : Env) (_fs : FsState) (dirs : InstallDirs)
    (manifest : Manifest) : List Path :=
  (operations.operation_destinations
      (operations.install_manifest manifest)).map fun destination =>
    (dirs.path destination.directory).joinc destination.name

/-- `files_to_remove` from `src/lib.rs` lines 188–195. The `env` and `fs`
arguments are the ambient world every library call runs in; the body,
translated from the source, consults neither. -/
def files_to_remove (_env : Env) (_fs : FsState) (dirs : InstallDirs)
    (manifest : Manifest) : List Path :=
  (operations.remove_manifest manifest).map fun op =>
    match op with
    | RemoveOperation.delete dir name => (dirs.path dir).joinc name

/-- Modelled from the spec: `HomebinProjectDirs` of the missing `dirs`
module — the project cache/download scratch space (§2). -/
structure HomebinProjectDirs where
  download_dir : Path
deriving DecidableEq, Repr

/-- Modelled from the spec: `ManifestOperationDirs` of the missing `dirs`
module — "ephemeral, per-manifest-invocation scratch context combining
InstallDirs with a download/extraction working directory unique to the
manifest (derived from its name)" (§3). -/
structure ManifestOperationDirs where
  install_dirs : InstallDirs
  downloadDir : Path
deriving DecidableEq, Repr

/-- Modelled from the spec: `ManifestOperationDirs::for_manifest` of the
missing `dirs` module — the scratch path is computed deterministically
from the manifest identity (§3, §5). -/
def ManifestOperationDirs.for_manifest (dirs : HomebinProjectDirs)
    (install_dirs : InstallDirs) (manifest : Manifest) :
    ManifestOperationDirs :=
  ⟨install_dirs, dirs.download_dir.joinc manifest.info.name⟩

/-- The scratch path of a named file in the working directory. -/
def ManifestOperationDirs.scratch (op_dirs : ManifestOperationDirs)
    (name : String) : Path :=
  op_dirs.downloadDir.joinc name

/-- Modelled from the spec: `ApplyOperation` for `Operation` of the
missing `operations` module (§4.2) — download fetches to the scratch path
and verifies the checksum, a mismatch deletes the file and is a hard
error; extract pulls a member of a fetched archive into scratch, a missing
member is a hard error; the place operations copy from scratch to the
resolved destination, overwriting any pre-existing file. The executable
permission bit set by `PlaceExecutable` is not tracked by `FsState`. -/
def Operation.apply_operation (ext : Ext) (env : Env) (op : Operation)
    (op_dirs : ManifestOperationDirs) (fs : FsState) :
    FsState × Option Err :=
  match op with
  | .download url checksum target =>
    match env.fetch url with
    | none => (fs, some (.networkError url))
    | some content =>
      let fetched := fs.write (op_dirs.scratch target) content
      if ext.hash content = checksum then (fetched, none)
      else
        (fetched.erase (op_dirs.scratch target),
          some (.checksumMismatch checksum (ext.hash content)))
  | .extract archive member target =>
    match fs.read (op_dirs.scratch archive) with
    | none => (fs, some (.missingScratchFile (op_dirs.scratch archive)))
    | some data =>
      match env.extractMember data member with
      | none => (fs, some (.missingMember member))
      | some content => (fs.write (op_dirs.scratch target) content, none)
  | .placeExecutable source destination =>
    match fs.read (op_dirs.scratch source) with
    | none => (fs, some (.missingScratchFile (op_dirs.scratch source)))
    | some content =>
      (fs.write
          ((op_dirs.install_dirs.path destination.directory).joinc
            destination.name)
          content,
        none)
  | .placeFile source destination =>
    match fs.read (op_dirs.scratch source) with
    | none => (fs, some (.missingScratchFile (op_dirs.scratch source)))
    | some content =>
      (fs.write
          ((op_dirs.install_dirs.path destination.directory).joinc
            destination.name)
          content,
        none)

/-- Modelled from the spec: `ApplyOperation` for `RemoveOperation` of the
missing `operations` module (§4.2) — removing a non-existent file is not
an error. -/
def RemoveOperation.apply_operation (env : Env) (op : RemoveOperation)
    (op_dirs : ManifestOperationDirs) (fs : FsState) : FsState × Option Err :=
  match op with
  | .delete dir name =>
    let p := (op_dirs.install_dirs.path dir).joinc name
    match fs.read p with
    | none => (fs, none)
    | some _ =>
      if env.delete_ok p then (fs.erase p, none)
      else (fs, some (.deleteFailed p))

/-- The operation loop shared by `install_manifest` (`src/lib.rs` lines
95–97) and `remove_manifest` (lines 111–113):
`for operation in operations { operation.apply_operation(&op_dirs)?; }`.
Returns the operations that were started, the world state reached, and
the error of the first failing operation, if any; the loop stops at the
first failure and never undoes earlier effects. -/
def run_ops {α σ : Type} (step : α → σ → σ × Option Err) :
    List α → σ → List α × σ × Option Err
  | [], s => ([], s, none)
  | op :: remaining, s =>
    match step op s with
    | (s1, none) =>
      let (started, s2, result) := run_ops step remaining s1
      (op :: started, s2, result)
    | (s1, some e) => ([op], s1, some e)

/-- `install_manifest` from `src/lib.rs` lines 80–98: resolve the
operation dirs, plan the install operations, create the download
directory, then apply each operation in sequence, fail-fast. -/
def install_manifest (ext : Ext) (env : Env) (dirs : HomebinProjectDirs)
    (install_dirs : InstallDirs) (manifest : Manifest) (fs : FsState) :
    List Operation × FsState × Option Err :=
  let op_dirs := ManifestOperationDirs.for_manifest dirs install_dirs manifest
  let ops := operations.install_manifest manifest
  if env.create_dir_all op_dirs.downloadDir then
    run_ops (fun op fs => op.apply_operation ext env op_dirs fs) ops fs
  else ([], fs, some (.createDirFailed op_dirs.downloadDir))

/-- `remove_manifest` from `src/lib.rs` lines 104–114: resolve the
operation dirs, plan the remove operations, then apply each in sequence,
fail-fast. -/
def remove_manifest (env : Env) (dirs : HomebinProjectDirs)
    (install_dirs : InstallDirs) (manifest : Manifest) (fs : FsState) :
    List RemoveOperation × FsState × Option Err :=
  let op_dirs := ManifestOperationDirs.for_manifest dirs install_dirs manifest
  run_ops (fun op fs => op.apply_operation env op_dirs fs)
    (operations.remove_manifest manifest) fs

/-! ## Theorems -/

/-- Claim C2: `installed_manifest_version` returns `None` without error in
exactly two cases — the expected binary file is absent at the resolved bin
directory, or the binary was run and the manifest's pattern did not match
(or yielded no capture group 1 on) its decoded stdout. -/
theorem c2_none_exactly_two_cases (ext : Ext) (env : Env)
    (dirs : InstallDirs) (manifest : Manifest) :
    (installed_manifest_version ext env dirs manifest).2 = .ok none ↔
      (env.is_file (dirs.bin_dir.joinc manifest.discover.binary) = false ∨
        (env.is_file (dirs.bin_dir.joinc manifest.discover.binary) = true ∧
          ∃ output regex out,
            env.run (dirs.bin_dir.joinc manifest.discover.binary)
                manifest.discover.version_check.args = some output ∧
              ext.compile manifest.discover.version_check.pattern =
                some regex ∧
              ext.decodeUtf8 output.stdout = some out ∧
              regex out = none)) := by
  unfold installed_manifest_version
  cases hf : env.is_file (dirs.bin_dir.joinc manifest.discover.binary)
  · simp [hf]
  · simp only [hf, if_pos, true_and, Bool.true_eq_false, false_or]
    cases hr : env.run (dirs.bin_dir.joinc manifest.discover.binary)
        manifest.discover.version_check.args with
    | none => simp [hr]
    | some output =>
      cases hc : ext.compile manifest.discover.version_check.pattern with
      | none => simp [hr, hc]
      | some regex =>
        cases hd : ext.decodeUtf8 output.stdout with
        | none => simp [hr, hc, hd]
        | some out =>
          cases hm : regex out with
          | none => simp [hr, hc, hd, hm]
          | some s =>
            cases hp : ext.parseVersion s <;> simp [hr, hc, hd, hm, hp]

/-- Claim C3: `outdated_manifest_version` returns the installed version
exactly when the probe yields it and it is strictly below the manifest's
declared version, and returns nothing both when the probe yields nothing
and when the installed version is not below the declared one. -/
theorem c3_outdated_iff_strictly_less (ext : Ext) (env : Env)
    (dirs : InstallDirs) (manifest : Manifest) :
    (∀ v, (outdated_manifest_version ext env dirs manifest).2 =
        .ok (some v) ↔
      ((installed_manifest_version ext env dirs manifest).2 = .ok (some v) ∧
        Versioning.lt v manifest.info.version = true)) ∧
    ((outdated_manifest_version ext env dirs manifest).2 = .ok none ↔
      ((installed_manifest_version ext env dirs manifest).2 = .ok none ∨
        ∃ v,
          (installed_manifest_version ext env dirs manifest).2 =
              .ok (some v) ∧
            Versioning.lt v manifest.info.version = false)) := by
  unfold outdated_manifest_version
  cases hprobe : installed_manifest_version ext env dirs manifest with
  | mk events r =>
    cases r with
    | error e => simp
    | ok installed =>
      cases installed with
      | none => simp [Option.filter]
      | some v0 =>
        cases hlt : Versioning.lt v0 manifest.info.version <;>
          simp [Option.filter, hlt]

/-- Claim C8: when the subprocess could be started, the probe's outcome —
trace and result alike — depends only on the captured stdout bytes; in
particular the exit code is never inspected, so a non-zero exit code alone
is never treated as an error. -/
theorem c8_result_depends_only_on_stdout (ext : Ext) (env1 env2 : Env)
    (dirs : InstallDirs) (manifest : Manifest) (o1 o2 : ProcOutput)
    (hf1 : env1.is_file (dirs.bin_dir.joinc manifest.discover.binary) = true)
    (hf2 : env2.is_file (dirs.bin_dir.joinc manifest.discover.binary) = true)
    (hr1 : env1.run (dirs.bin_dir.joinc manifest.discover.binary)
        manifest.discover.version_check.args = some o1)
    (hr2 : env2.run (dirs.bin_dir.joinc manifest.discover.binary)
        manifest.discover.version_check.args = some o2)
    (hs : o1.stdout = o2.stdout) :
    installed_manifest_version ext env1 dirs manifest =
      installed_manifest_version ext env2 dirs manifest := by
  unfold installed_manifest_version
  simp [hf1, hf2, hr1, hr2, hs]

/-- Claim C9: a pattern match whose capture group 1 fails to parse as a
version makes `installed_manifest_version` fail with a hard error, never
return `None`. -/
theorem c9_unparsable_capture_is_hard_error (ext : Ext) (env : Env)
    (dirs : InstallDirs) (manifest : Manifest) (output : ProcOutput)
    (regex : String → Option String) (out s : String)
    (hf : env.is_file (dirs.bin_dir.joinc manifest.discover.binary) = true)
    (hr : env.run (dirs.bin_dir.joinc manifest.discover.binary)
        manifest.discover.version_check.args = some output)
    (hc : ext.compile manifest.discover.version_check.pattern = some regex)
    (hd : ext.decodeUtf8 output.stdout = some out)
    (hm : regex out = some s)
    (hp : ext.parseVersion s = none) :
    (installed_manifest_version ext env dirs manifest).2 =
      .error (.invalidVersion (dirs.bin_dir.joinc manifest.discover.binary)
        manifest.discover.version_check.args (some s)) := by
  unfold installed_manifest_version
  simp [hf, hr, hc, hd, hm, hp]

/-- An oracle record whose regex engine rejects every pattern, modelling a
malformed `version_check` pattern. -/
def extBadPattern : Ext where
  compile := fun _ => none
  parseVersion := fun _ => none
  decodeUtf8 := fun _ => some ""
  hash := fun _ => ""

/-- A world in which every file exists and every subprocess runs,
printing nothing with exit code 0. -/
def envBinaryPresent : Env where
  is_file := fun _ => true
  run := fun _ _ => some ⟨0, []⟩
  fetch := fun _ => none
  extractMember := fun _ _ => none
  create_dir_all := fun _ => true
  delete_ok := fun _ => true

/-- A sample directory configuration. -/
def sampleDirs : InstallDirs where
  bin := ["home", "bin"]
  man := ["home", "man"]
  completion := ["home", "completion"]

/-- A manifest whose version-check pattern is malformed (rejected by the
regex engine of `extBadPattern`). -/
def manifestBadPattern : Manifest where
  info := ⟨"tool", ⟨1, 0, 0⟩⟩
  discover := ⟨"tool", ⟨["--version"], "("⟩⟩
  install := ⟨"example.com/tool", "sum", []⟩

/-- Claim C1, counterexample: with a malformed pattern and the binary
present, the probe does fail with the invalid-regex hard error, but its
trace already records the subprocess invocation — the error is surfaced
after the installed binary is invoked, not before. -/
theorem c1_counterexample :
    extBadPattern.compile
        manifestBadPattern.discover.version_check.pattern = none ∧
      (installed_manifest_version extBadPattern envBinaryPresent sampleDirs
            manifestBadPattern).1 =
        [Event.ranProcess ["home", "bin", "tool"] ["--version"]] ∧
      (installed_manifest_version extBadPattern envBinaryPresent sampleDirs
            manifestBadPattern).2 =
        .error (.invalidRegex "tool" "(") :=
  ⟨rfl, rfl, rfl⟩

/-- Claim C1, amended: for every manifest whose version-check pattern is a
malformed regular expression, whenever the expected binary is present and
the probe command can be run, `installed_manifest_version` fails with the
invalid-regex hard error; the error is surfaced after the binary has been
invoked as a subprocess (the trace holds exactly that invocation) and
before the pattern is applied to its output. -/
theorem c1_amended_invalid_regex_after_subprocess (ext : Ext) (env : Env)
    (dirs : InstallDirs) (manifest : Manifest) (output : ProcOutput)
    (hf : env.is_file (dirs.bin_dir.joinc manifest.discover.binary) = true)
    (hr : env.run (dirs.bin_dir.joinc manifest.discover.binary)
        manifest.discover.version_check.args = some output)
    (hc : ext.compile manifest.discover.version_check.pattern = none) :
    installed_manifest_version ext env dirs manifest =
      ([Event.ranProcess (dirs.bin_dir.joinc manifest.discover.binary)
          manifest.discover.version_check.args],
        .error (.invalidRegex manifest.info.name
          manifest.discover.version_check.pattern)) := by
  unfold installed_manifest_version
  simp [hf, hr, hc]

/-- Witness for the amended claim C1 at the concrete fixtures. -/
theorem c1_amended_witness :
    envBinaryPresent.is_file
        (sampleDirs.bin_dir.joinc manifestBadPattern.discover.binary) =
        true ∧
      envBinaryPresent.run
          (sampleDirs.bin_dir.joinc manifestBadPattern.discover.binary)
          manifestBadPattern.discover.version_check.args =
        some ⟨0, []⟩ ∧
      extBadPattern.compile
          manifestBadPattern.discover.version_check.pattern = none ∧
      installed_manifest_version extBadPattern envBinaryPresent sampleDirs
          manifestBadPattern =
        ([Event.ranProcess
            (sampleDirs.bin_dir.joinc manifestBadPattern.discover.binary)
            manifestBadPattern.discover.version_check.args],
          .error (.invalidRegex manifestBadPattern.info.name
            manifestBadPattern.discover.version_check.pattern)) :=
  ⟨rfl, rfl, rfl,
    c1_amended_invalid_regex_after_subprocess extBadPattern envBinaryPresent
      sampleDirs manifestBadPattern ⟨0, []⟩ rfl rfl rfl⟩

/-- A sample compiled regex: capture group 1 of `v(...)` on the outputs
used by the sample worlds. -/
def regexSample : String → Option String := fun s =>
  if s = "tool v1.2.3" then some "1.2.3"
  else if s = "tool vBAD" then some "BAD"
  else none

/-- Sample oracles: one well-formed pattern, a version parser knowing the
sample versions, a UTF-8 decoder for the sample outputs, and a hash
distinguishing the good artifact content. -/
def extSample : Ext where
  compile := fun p => if p = "vpat" then some regexSample else none
  parseVersion := fun s =>
    if s = "1.2.3" then some ⟨1, 2, 3⟩
    else if s = "1.9.0" then some ⟨1, 9, 0⟩
    else none
  decodeUtf8 := fun bytes =>
    if bytes = [116] then some "tool v1.2.3"
    else if bytes = [98] then some "tool vBAD"
    else none
  hash := fun content => if content = [1, 2, 3] then "goodsum" else "othersum"

/-- A sample manifest with a well-formed pattern and two declared files. -/
def manifestSample : Manifest where
  info := ⟨"tool", ⟨2, 0, 0⟩⟩
  discover := ⟨"tool", ⟨["--version"], "vpat"⟩⟩
  install :=
    ⟨"example.com/tool", "goodsum",
      [⟨"tool", .bin, "tool", true⟩, ⟨"tool.1", .man, "tool.1", false⟩]⟩

/-- The world of `envBinaryPresent` whose subprocesses exit 0 printing the
sample version line. -/
def envExit0 : Env :=
  { envBinaryPresent with run := fun _ _ => some ⟨0, [116]⟩ }

/-- The world of `envBinaryPresent` whose subprocesses exit 1 printing the
sample version line. -/
def envExit1 : Env :=
  { envBinaryPresent with run := fun _ _ => some ⟨1, [116]⟩ }

/-- The world of `envBinaryPresent` whose subprocesses print a line whose
captured version text does not parse. -/
def envBadVersion : Env :=
  { envBinaryPresent with run := fun _ _ => some ⟨0, [98]⟩ }

/-- Witness for claim C8 at the concrete fixtures: exit codes 0 and 1 with
identical stdout give identical probe outcomes. -/
theorem c8_witness :
    envExit0.is_file
        (sampleDirs.bin_dir.joinc manifestSample.discover.binary) = true ∧
      envExit1.is_file
          (sampleDirs.bin_dir.joinc manifestSample.discover.binary) = true ∧
      envExit0.run (sampleDirs.bin_dir.joinc manifestSample.discover.binary)
          manifestSample.discover.version_check.args =
        some ⟨0, [116]⟩ ∧
      envExit1.run (sampleDirs.bin_dir.joinc manifestSample.discover.binary)
          manifestSample.discover.version_check.args =
        some ⟨1, [116]⟩ ∧
      (⟨0, [116]⟩ : ProcOutput).stdout = (⟨1, [116]⟩ : ProcOutput).stdout ∧
      installed_manifest_version extSample envExit0 sampleDirs
          manifestSample =
        installed_manifest_version extSample envExit1 sampleDirs
          manifestSample :=
  ⟨rfl, rfl, rfl, rfl, rfl,
    c8_result_depends_only_on_stdout extSample envExit0 envExit1 sampleDirs
      manifestSample ⟨0, [116]⟩ ⟨1, [116]⟩ rfl rfl rfl rfl rfl⟩

/-- Witness for claim C9 at the concrete fixtures: the captured text
`BAD` does not parse, and the probe fails with the invalid-version
error. -/
theorem c9_witness :
    envBadVersion.is_file
        (sampleDirs.bin_dir.joinc manifestSample.discover.binary) = true ∧
      envBadVersion.run
          (sampleDirs.bin_dir.joinc manifestSample.discover.binary)
          manifestSample.discover.version_check.args =
        some ⟨0, [98]⟩ ∧
      extSample.compile manifestSample.discover.version_check.pattern =
        some regexSample ∧
      extSample.decodeUtf8 ((⟨0, [98]⟩ : ProcOutput).stdout) =
        some "tool vBAD" ∧
      regexSample "tool vBAD" = some "BAD" ∧
      extSample.parseVersion "BAD" = none ∧
      (installed_manifest_version extSample envBadVersion sampleDirs
            manifestSample).2 =
        .error
          (.invalidVersion
            (sampleDirs.bin_dir.joinc manifestSample.discover.binary)
            manifestSample.discover.version_check.args (some "BAD")) :=
  ⟨rfl, rfl, rfl, rfl, rfl, rfl,
    c9_unparsable_capture_is_hard_error extSample envBadVersion sampleDirs
      manifestSample ⟨0, [98]⟩ regexSample "tool vBAD" "BAD" rfl rfl rfl rfl
      rfl rfl⟩

/-- Claim C5: `installed_files` is deterministic — its value is the same
in any two ambient worlds and filesystem states, so it depends only on
the manifest and the directory configuration and never reads the
filesystem. -/
theorem c5_installed_files_deterministic (env1 env2 : Env)
    (fs1 fs2 : FsState) (dirs : InstallDirs) (manifest : Manifest) :
    installed_files env1 fs1 dirs manifest =
      installed_files env2 fs2 dirs manifest := rfl

/-- The destinations of an install plan are exactly the manifest's
declared (directory-kind, name) pairs, in declaration order. -/
theorem operation_destinations_install (manifest : Manifest) :
    operations.operation_destinations
        (operations.install_manifest manifest) =
      manifest.install.files.map fun file =>
        ⟨file.destDir, file.name⟩ := by
  unfold operations.operation_destinations operations.install_manifest
  simp only [List.filterMap_cons]
  induction manifest.install.files with
  | nil => rfl
  | cons file rest ih =>
    cases hb : file.isExecutable <;>
      simp [hb, List.filterMap_append, ih]

/-- Claim C4: the destination paths of `files_to_remove` are exactly the
destination paths of `installed_files`, for every manifest and directory
configuration (in fact the two lists are equal). -/
theorem c4_remove_covers_installed (env : Env) (fs : FsState)
    (dirs : InstallDirs) (manifest : Manifest) :
    ∀ p : Path,
      p ∈ files_to_remove env fs dirs manifest ↔
        p ∈ installed_files env fs dirs manifest := by
  have hlists : files_to_remove env fs dirs manifest =
      installed_files env fs dirs manifest := by
    unfold files_to_remove installed_files operations.remove_manifest
    rw [operation_destinations_install]
    simp [List.map_map, Function.comp]
  intro p
  rw [hlists]

/-- The two path lists of `src/lib.rs` coincide: `files_to_remove` and
`installed_files` both enumerate the manifest's declared destinations in
declaration order. -/
theorem files_to_remove_eq_installed_files (env : Env) (fs : FsState)
    (dirs : InstallDirs) (manifest : Manifest) :
    files_to_remove env fs dirs manifest =
      installed_files env fs dirs manifest := by
  unfold files_to_remove installed_files operations.remove_manifest
  rw [operation_destinations_install]
  simp [List.map_map, Function.comp]

/-- Joining distinct single file names onto paths is injective in both
components. -/
theorem Path.joinc_inj {p q : Path} {a b : String} :
    p.joinc a = q.joinc b ↔ p = q ∧ a = b := by
  constructor
  · intro h
    have h2 := congrArg List.reverse h
    simp only [Path.joinc, List.reverse_append, List.reverse_cons,
      List.reverse_nil, List.nil_append, List.cons_append] at h2
    injection h2 with h3 h4
    exact ⟨List.reverse_injective h4, h3⟩
  · rintro ⟨rfl, rfl⟩
    rfl

/-- Claim C10: every path returned by `installed_files` or
`files_to_remove` is exactly the single directory resolved for some
declared destination's kind extended by that destination's file name as
one final component — directly inside the install directory, with no
intermediate subdirectory. -/
theorem c10_paths_directly_inside_install_dirs (env : Env) (fs : FsState)
    (dirs : InstallDirs) (manifest : Manifest) (p : Path)
    (hp : p ∈ installed_files env fs dirs manifest ∨
      p ∈ files_to_remove env fs dirs manifest) :
    ∃ destination,
      destination ∈
          operations.operation_destinations
            (operations.install_manifest manifest) ∧
        p = dirs.path destination.directory ++ [destination.name] := by
  rw [files_to_remove_eq_installed_files] at hp
  have hmem : p ∈ installed_files env fs dirs manifest := hp.elim id id
  unfold installed_files at hmem
  rcases List.mem_map.mp hmem with ⟨destination, hdmem, hpe⟩
  exact ⟨destination, hdmem, hpe.symm⟩

/-- Witness for claim C10 at the concrete fixtures. -/
theorem c10_witness :
    (["home", "bin", "tool"] ∈
          installed_files envBinaryPresent [] sampleDirs manifestSample ∨
        ["home", "bin", "tool"] ∈
          files_to_remove envBinaryPresent [] sampleDirs manifestSample) ∧
      ∃ destination,
        destination ∈
            operations.operation_destinations
              (operations.install_manifest manifestSample) ∧
          ["home", "bin", "tool"] =
            sampleDirs.path destination.directory ++ [destination.name] :=
  ⟨Or.inl (by simp [installed_files, operations.install_manifest,
      operations.operation_destinations, manifestSample, sampleDirs,
      InstallDirs.path, Path.joinc]),
    c10_paths_directly_inside_install_dirs envBinaryPresent [] sampleDirs
      manifestSample ["home", "bin", "tool"]
      (Or.inl (by simp [installed_files, operations.install_manifest,
        operations.operation_destinations, manifestSample, sampleDirs,
        InstallDirs.path, Path.joinc]))⟩

/-- Claim C7: the operation loop shared by `install_manifest` and
`remove_manifest` is sequential and fail-fast — if every operation of a
prefix succeeds and the next operation fails, the run stops at that
operation with its error, the remaining operations are never started, and
the state reached is the failing step's (the prefix's effects are kept,
not rolled back). -/
theorem c7_run_ops_fail_fast {α σ : Type} (step : α → σ → σ × Option Err)
    (applied : List α) (op : α) (remaining : List α) (s s1 s2 : σ)
    (e : Err)
    (hpre : run_ops step applied s = (applied, s1, none))
    (hfail : step op s1 = (s2, some e)) :
    run_ops step (applied ++ op :: remaining) s =
      (applied ++ [op], s2, some e) := by
  induction applied generalizing s with
  | nil =>
    unfold run_ops at hpre
    injection hpre with _ h2
    injection h2 with h3 _
    subst h3
    simp only [List.nil_append]
    unfold run_ops
    rw [hfail]
  | cons a rest ih =>
    unfold run_ops at hpre
    cases hstep : step a s with
    | mk s' r =>
      cases r with
      | some e0 =>
        simp only [hstep] at hpre
        simp at hpre
      | none =>
        simp only [hstep] at hpre
        cases hrec : run_ops step rest s' with
        | mk started rest2 =>
          cases rest2 with
          | mk s3 r3 =>
            simp only [hrec, Prod.mk.injEq, List.cons.injEq] at hpre
            obtain ⟨⟨_, hstarted⟩, hs3, hr3⟩ := hpre
            subst hstarted hs3 hr3
            have hresult := ih s' hrec
            simp only [List.cons_append]
            unfold run_ops
            simp only [hstep, hresult]

/-- Sample operation dirs: the sample install dirs with a per-manifest
scratch directory. -/
def opDirsSample : ManifestOperationDirs := ⟨sampleDirs, ["cache", "tool"]⟩

/-- A world in which deleting the sample man page fails while every other
file operation succeeds. -/
def envNoDelete : Env :=
  { envBinaryPresent with
    delete_ok := fun p => !decide (p = ["home", "man", "tool.1"]) }

/-- A filesystem holding the sample binary and man page. -/
def fs0Sample : FsState :=
  [(["home", "bin", "tool"], [1]), (["home", "man", "tool.1"], [2])]

/-- `fs0Sample` after the sample binary has been deleted. -/
def fs1Sample : FsState := [(["home", "man", "tool.1"], [2])]

/-- The remove-side step function of `run_ops` in the sample world. -/
def stepSample : RemoveOperation → FsState → FsState × Option Err :=
  fun op fs => op.apply_operation envNoDelete opDirsSample fs

/-- Witness for claim C7 at the concrete fixtures: the first delete
succeeds, the second fails, and the run stops there keeping the first
delete's effect. -/
theorem c7_witness :
    run_ops stepSample [RemoveOperation.delete .bin "tool"] fs0Sample =
        ([RemoveOperation.delete .bin "tool"], fs1Sample, none) ∧
      stepSample (RemoveOperation.delete .man "tool.1") fs1Sample =
        (fs1Sample, some (.deleteFailed ["home", "man", "tool.1"])) ∧
      run_ops stepSample
          ([RemoveOperation.delete .bin "tool"] ++
            RemoveOperation.delete .man "tool.1" ::
              [RemoveOperation.delete .completion "extra"])
          fs0Sample =
        ([RemoveOperation.delete .bin "tool"] ++
            [RemoveOperation.delete .man "tool.1"],
          fs1Sample, some (.deleteFailed ["home", "man", "tool.1"])) :=
  ⟨rfl, rfl,
    c7_run_ops_fail_fast stepSample [RemoveOperation.delete .bin "tool"]
      (RemoveOperation.delete .man "tool.1")
      [RemoveOperation.delete .completion "extra"] fs0Sample fs1Sample
      fs1Sample (.deleteFailed ["home", "man", "tool.1"]) rfl rfl⟩

/-- Filtering out the entries of one path leaves reads of any other path
unchanged. -/
theorem FsState.read_filter_erase (fs : FsState) (p q : Path) (h : q ≠ p) :
    FsState.read (List.filter (fun entry => !decide (entry.1 = p)) fs) q =
      FsState.read fs q := by
  induction fs with
  | nil => rfl
  | cons entry rest ih =>
    obtain ⟨r, d⟩ := entry
    by_cases hr : r = p
    · subst hr
      simp [List.filter_cons, FsState.read, Ne.symm h, ih]
    · simp [List.filter_cons, hr, FsState.read, ih]

/-- Writing and then deleting one path leaves reads of any other path
unchanged. -/
theorem FsState.read_write_erase_ne (fs : FsState) (p : Path)
    (c : List Nat) (q : Path) (h : q ≠ p) :
    ((fs.write p c).erase p).read q = fs.read q := by
  unfold FsState.write FsState.erase
  have hcond : (!decide (p = p)) = false := by simp
  rw [List.filter_cons, hcond]
  simp only [Bool.false_eq_true, if_false]
  exact FsState.read_filter_erase fs p q h

/-- Claim C6: when the fetched artifact's content does not hash to the
manifest's declared checksum, `install_manifest` stops at the download
operation with the checksum-mismatch hard error — no place operation is
started, the invalid download is deleted again, and every destination
path of `installed_files` reads exactly as before. -/
theorem c6_checksum_mismatch_aborts_before_place (ext : Ext) (env : Env)
    (dirs : HomebinProjectDirs) (install_dirs : InstallDirs)
    (manifest : Manifest) (fs : FsState) (content : List Nat)
    (hcd : env.create_dir_all
      (dirs.download_dir.joinc manifest.info.name) = true)
    (hfetch : env.fetch manifest.install.url = some content)
    (hbad : ext.hash content ≠ manifest.install.checksum)
    (hdisj : ∀ d : Dir,
      install_dirs.path d ≠ dirs.download_dir.joinc manifest.info.name) :
    install_manifest ext env dirs install_dirs manifest fs =
        ([Operation.download manifest.install.url manifest.install.checksum
            (downloadName manifest.install.url)],
          (fs.write
              ((dirs.download_dir.joinc manifest.info.name).joinc
                (downloadName manifest.install.url))
              content).erase
            ((dirs.download_dir.joinc manifest.info.name).joinc
              (downloadName manifest.install.url)),
          some (.checksumMismatch manifest.install.checksum
            (ext.hash content))) ∧
      ∀ p ∈ installed_files env fs install_dirs manifest,
        (install_manifest ext env dirs install_dirs manifest fs).2.1.read
            p = fs.read p := by
  have hmain : install_manifest ext env dirs install_dirs manifest fs =
      ([Operation.download manifest.install.url manifest.install.checksum
          (downloadName manifest.install.url)],
        (fs.write
            ((dirs.download_dir.joinc manifest.info.name).joinc
              (downloadName manifest.install.url))
            content).erase
          ((dirs.download_dir.joinc manifest.info.name).joinc
            (downloadName manifest.install.url)),
        some (.checksumMismatch manifest.install.checksum
          (ext.hash content))) := by
    unfold install_manifest operations.install_manifest run_ops
      Operation.apply_operation ManifestOperationDirs.for_manifest
      ManifestOperationDirs.scratch
    simp [hcd, hfetch, hbad]
  refine ⟨hmain, ?_⟩
  intro p hp
  rw [hmain]
  unfold installed_files at hp
  rcases List.mem_map.mp hp with ⟨destination, hdmem, rfl⟩
  apply FsState.read_write_erase_ne
  intro heq
  rw [Path.joinc_inj] at heq
  exact hdisj destination.directory heq.1

/-- Sample project dirs with a cache root. -/
def projectDirsSample : HomebinProjectDirs := ⟨["cache"]⟩

/-- A world whose fetches all yield content hashing to the wrong
checksum. -/
def envBadFetch : Env :=
  { envBinaryPresent with fetch := fun _ => some [9] }

/-- Witness for claim C6 at the concrete fixtures. -/
theorem c6_witness :
    envBadFetch.create_dir_all
        (projectDirsSample.download_dir.joinc manifestSample.info.name) =
        true ∧
      envBadFetch.fetch manifestSample.install.url = some [9] ∧
      extSample.hash [9] ≠ manifestSample.install.checksum ∧
      (∀ d : Dir,
        sampleDirs.path d ≠
          projectDirsSample.download_dir.joinc manifestSample.info.name) ∧
      (install_manifest extSample envBadFetch projectDirsSample sampleDirs
            manifestSample [] =
          ([Operation.download manifestSample.install.url
              manifestSample.install.checksum
              (downloadName manifestSample.install.url)],
            (FsState.write []
                ((projectDirsSample.download_dir.joinc
                    manifestSample.info.name).joinc
                  (downloadName manifestSample.install.url))
                [9]).erase
              ((projectDirsSample.download_dir.joinc
                  manifestSample.info.name).joinc
                (downloadName manifestSample.install.url)),
            some (.checksumMismatch manifestSample.install.checksum
              (extSample.hash [9]))) ∧
        ∀ p ∈ installed_files envBadFetch [] sampleDirs manifestSample,
          (install_manifest extSample envBadFetch projectDirsSample
                sampleDirs manifestSample []).2.1.read p =
            FsState.read [] p) :=
  ⟨rfl, rfl, by decide, by intro d; cases d <;> decide,
    c6_checksum_mismatch_aborts_before_place extSample envBadFetch
      projectDirsSample sampleDirs manifestSample [] [9] rfl rfl
      (by decide) (by intro d; cases d <;> decide)⟩

end Homebins
